import Mathlib

/-!
Verification of the Brunnhilde characterization-aggregation and reporting
engine (src/brunnhilde.py) against its natural-language specification.

The Python code is shallowly embedded: the sqlite table `siegfried` becomes a
`List Record`; each SQL query of `get_stats` / `generate_reports` becomes an
executable Lean function over that list; the HTML renderer `write_html`
becomes a function producing the list of strings passed to `html.write`
(one list element per write call); the PUID rewriter `write_pronom_links`
becomes a character-list transformation mirroring `re.findall` and
`str.replace`.  Python-3 branches of the source are modelled (the code takes
them whenever `sys.version_info > (3, 0)`).
-/

namespace Brunnhilde

/-- First-occurrence deduplication with an accumulator of already-seen keys.
Models Python's `list(OrderedDict.fromkeys(xs))` (keep the first occurrence,
preserve order) and is also used to model SQL `DISTINCT`, whose row order
SQLite leaves unspecified; every theorem below that depends on a `DISTINCT`
result is order-robust. -/
def dedupAcc {α : Type} [DecidableEq α] (seen : List α) : List α → List α
  | [] => []
  | x :: xs => if x ∈ seen then dedupAcc seen xs else x :: dedupAcc (x :: seen) xs

/-- First-occurrence deduplication of a list. -/
def firstDedup {α : Type} [DecidableEq α] (l : List α) : List α := dedupAcc [] l

theorem mem_dedupAcc {α : Type} [DecidableEq α] (l : List α) :
    ∀ (seen : List α) (a : α), a ∈ dedupAcc seen l ↔ a ∈ l ∧ a ∉ seen := by
  induction l with
  | nil => intro seen a; simp [dedupAcc]
  | cons x xs ih =>
    intro seen a
    by_cases hx : x ∈ seen
    · rw [show dedupAcc seen (x :: xs) = dedupAcc seen xs from by
        simp [dedupAcc, hx], ih]
      constructor
      · rintro ⟨h1, h2⟩; exact ⟨List.mem_cons_of_mem _ h1, h2⟩
      · rintro ⟨h1, h2⟩
        rcases List.mem_cons.1 h1 with rfl | h1
        · exact absurd hx h2
        · exact ⟨h1, h2⟩
    · rw [show dedupAcc seen (x :: xs) = x :: dedupAcc (x :: seen) xs from by
        simp [dedupAcc, hx]]
      constructor
      · intro h
        rcases List.mem_cons.1 h with rfl | h1
        · exact ⟨List.mem_cons_self a xs, hx⟩
        · have h2 := (ih _ _).1 h1
          exact ⟨List.mem_cons_of_mem _ h2.1,
            fun hs => h2.2 (List.mem_cons_of_mem _ hs)⟩
      · rintro ⟨h1, h2⟩
        by_cases hax : a = x
        · subst hax; exact List.mem_cons_self a _
        · rcases List.mem_cons.1 h1 with rfl | h1
          · exact absurd rfl hax
          · refine List.mem_cons_of_mem _ ((ih _ _).2 ⟨h1, fun hs => ?_⟩)
            rcases List.mem_cons.1 hs with h | h
            · exact hax h
            · exact h2 h

theorem mem_firstDedup {α : Type} [DecidableEq α] {l : List α} {a : α} :
    a ∈ firstDedup l ↔ a ∈ l := by
  simp [firstDedup, mem_dedupAcc]

theorem nodup_dedupAcc {α : Type} [DecidableEq α] (l : List α) :
    ∀ seen : List α, (dedupAcc seen l).Nodup := by
  induction l with
  | nil => intro seen; simp [dedupAcc]
  | cons x xs ih =>
    intro seen
    by_cases hx : x ∈ seen
    · rw [show dedupAcc seen (x :: xs) = dedupAcc seen xs from by
        simp [dedupAcc, hx]]
      exact ih seen
    · rw [show dedupAcc seen (x :: xs) = x :: dedupAcc (x :: seen) xs from by
        simp [dedupAcc, hx]]
      refine List.nodup_cons.2 ⟨fun hmem => ?_, ih (x :: seen)⟩
      exact ((mem_dedupAcc xs (x :: seen) x).1 hmem).2 (List.mem_cons_self x seen)

theorem nodup_firstDedup {α : Type} [DecidableEq α] (l : List α) :
    (firstDedup l).Nodup := nodup_dedupAcc l []

theorem firstDedup_ne_nil {α : Type} [DecidableEq α] {l : List α} (h : l ≠ []) :
    firstDedup l ≠ [] := by
  rcases List.exists_cons_of_ne_nil h with ⟨x, xs, rfl⟩
  show dedupAcc [] (x :: xs) ≠ []
  simp [dedupAcc]

/-- Generic fold computing Python's `min(x :: xs, key=...)`: the accumulator is
replaced exactly when the candidate is strictly below it, so the first minimal
element wins, as in CPython. -/
def foldMin {α : Type} (lt : α → α → Bool) (x : α) (xs : List α) : α :=
  xs.foldl (fun acc y => if lt y acc then y else acc) x

/-- Generic fold computing Python's `max(x :: xs, key=...)`: the accumulator is
replaced exactly when the candidate is strictly above it. -/
def foldMax {α : Type} (lt : α → α → Bool) (x : α) (xs : List α) : α :=
  xs.foldl (fun acc y => if lt acc y then y else acc) x

theorem foldMin_mem {α : Type} (lt : α → α → Bool) (xs : List α) :
    ∀ x : α, foldMin lt x xs ∈ x :: xs := by
  induction xs with
  | nil => intro x; simp [foldMin]
  | cons y ys ih =>
    intro x
    show foldMin lt (if lt y x then y else x) ys ∈ x :: y :: ys
    rcases List.mem_cons.1 (ih (if lt y x then y else x)) with h | h
    · rw [h]
      by_cases hc : lt y x
      · simp [hc]
      · simp [hc]
    · exact List.mem_cons_of_mem _ (List.mem_cons_of_mem _ h)

theorem foldMin_not_lt {α : Type} (lt : α → α → Bool)
    (htrans : ∀ a b c, lt a b = true → lt b c = true → lt a c = true)
    (hirr : ∀ a, lt a a = false)
    (hnegtrans : ∀ a b c, lt a b = false → lt b c = false → lt a c = false)
    (xs : List α) :
    ∀ x : α, ∀ z ∈ x :: xs, lt z (foldMin lt x xs) = false := by
  induction xs with
  | nil =>
    intro x z hz
    rcases List.mem_cons.1 hz with rfl | h
    · simpa [foldMin] using hirr z
    · cases h
  | cons y ys ih =>
    intro x z hz
    show lt z (foldMin lt (if lt y x then y else x) ys) = false
    by_cases hc : lt y x
    · rw [if_pos hc]
      rcases List.mem_cons.1 hz with rfl | hz'
      · -- z = x: from lt y x and ¬ lt y r conclude ¬ lt x r by transitivity
        have hy : lt y (foldMin lt y ys) = false :=
          ih y y (List.mem_cons_self y ys)
        by_cases hxr : lt z (foldMin lt y ys) = true
        · have := htrans y z (foldMin lt y ys) hc hxr
          rw [this] at hy; cases hy
        · simpa using hxr
      · rcases List.mem_cons.1 hz' with rfl | hz''
        · exact ih z z (List.mem_cons_self z ys)
        · exact ih y z (List.mem_cons_of_mem _ hz'')
    · rw [if_neg hc]
      have hyx : lt y x = false := by simpa using hc
      rcases List.mem_cons.1 hz with rfl | hz'
      · exact ih z z (List.mem_cons_self z ys)
      · rcases List.mem_cons.1 hz' with rfl | hz''
        · -- z = y: lt y x = false and lt x r = false give lt y r = false
          exact hnegtrans z x (foldMin lt x ys) hyx
            (ih x x (List.mem_cons_self x ys))
        · exact ih x z (List.mem_cons_of_mem _ hz'')

theorem foldMax_eq_foldMin_flip {α : Type} (lt : α → α → Bool) (x : α)
    (xs : List α) : foldMax lt x xs = foldMin (fun a b => lt b a) x xs := rfl

theorem foldMax_mem {α : Type} (lt : α → α → Bool) (xs : List α) (x : α) :
    foldMax lt x xs ∈ x :: xs := by
  rw [foldMax_eq_foldMin_flip]; exact foldMin_mem _ xs x

theorem foldMax_not_lt {α : Type} (lt : α → α → Bool)
    (htrans : ∀ a b c, lt a b = true → lt b c = true → lt a c = true)
    (hirr : ∀ a, lt a a = false)
    (hnegtrans : ∀ a b c, lt a b = false → lt b c = false → lt a c = false)
    (xs : List α) (x : α) :
    ∀ z ∈ x :: xs, lt (foldMax lt x xs) z = false := by
  intro z hz
  rw [foldMax_eq_foldMin_flip]
  exact foldMin_not_lt (fun a b => lt b a)
    (fun a b c h1 h2 => htrans c b a h2 h1) hirr
    (fun a b c h1 h2 => hnegtrans c b a h2 h1) xs x z hz

/-- Strict lexicographic comparison of character lists by Unicode code point,
modelling Python's `<` on `str` (used by `min(dates)` / `max(dates)` in
`get_stats`, src/brunnhilde.py lines 218-219). -/
def lexLt : List Char → List Char → Bool
  | _, [] => false
  | [], _ :: _ => true
  | a :: as, b :: bs =>
    a.toNat < b.toNat || (a.toNat == b.toNat && lexLt as bs)

/-- Strict lexicographic comparison of strings, Python's `s1 < s2`. -/
def lexStrLt (a b : String) : Bool := lexLt a.data b.data

theorem lexLt_irrefl : ∀ l : List Char, lexLt l l = false := by
  intro l
  induction l with
  | nil => rfl
  | cons a as ih => simp [lexLt, ih]

theorem lexLt_trans :
    ∀ a b c : List Char, lexLt a b = true → lexLt b c = true → lexLt a c = true := by
  intro a
  induction a with
  | nil =>
    intro b c hab hbc
    cases b with
    | nil => cases hab
    | cons y ys =>
      cases c with
      | nil => cases hbc
      | cons z zs => rfl
  | cons x xs ih =>
    intro b c hab hbc
    cases b with
    | nil => cases hab
    | cons y ys =>
      cases c with
      | nil => cases hbc
      | cons z zs =>
        simp only [lexLt, Bool.or_eq_true, Bool.and_eq_true, beq_iff_eq,
          decide_eq_true_eq] at hab hbc ⊢
        rcases hab with h1 | ⟨h1, h1'⟩
        · rcases hbc with h2 | ⟨h2, h2'⟩
          · exact Or.inl (Nat.lt_trans h1 h2)
          · exact Or.inl (h2 ▸ h1)
        · rcases hbc with h2 | ⟨h2, h2'⟩
          · exact Or.inl (h1 ▸ h2)
          · exact Or.inr ⟨h1.trans h2, ih ys zs h1' h2'⟩

theorem lexLt_connex :
    ∀ a b : List Char, lexLt a b = false → lexLt b a = true ∨ a = b := by
  intro a
  induction a with
  | nil =>
    intro b hab
    cases b with
    | nil => exact Or.inr rfl
    | cons y ys => cases hab
  | cons x xs ih =>
    intro b hab
    cases b with
    | nil => exact Or.inl rfl
    | cons y ys =>
      simp only [lexLt, Bool.or_eq_false_iff, Bool.and_eq_false_iff,
        beq_eq_false_iff_ne, ne_eq] at hab
      rcases Nat.lt_trichotomy x.toNat y.toNat with h | h | h
      · exact absurd h (by simpa using hab.1)
      · rcases hab.2 with h2 | h2
        · exact absurd h h2
        · rcases ih ys h2 with h3 | h3
          · refine Or.inl ?_
            simp [lexLt, h, h3]
          · have hx : x = y := Char.ofNat_toNat x ▸ (h ▸ Char.ofNat_toNat y)
            exact Or.inr (by rw [hx, h3])
      · refine Or.inl ?_
        simp [lexLt, h]

theorem lexLt_negtrans :
    ∀ a b c : List Char, lexLt a b = false → lexLt b c = false → lexLt a c = false := by
  intro a b c hab hbc
  by_contra hac
  have hac' : lexLt a c = true := by simpa using hac
  rcases lexLt_connex a b hab with h | rfl
  · have := lexLt_trans b a c h hac'
    rw [this] at hbc; cases hbc
  · rw [hac'] at hbc; cases hbc

/-- Numeric value of a decimal-digit string (used to model Python's
`float(...)` as the key of `min`/`max` over the 4-character year strings,
src/brunnhilde.py lines 185-186; on equal-length digit strings such as the
year prefixes, `float` comparison and this natural-number comparison agree
exactly). -/
def digitVal (s : String) : Nat :=
  s.data.foldl (fun n c => n * 10 + (c.toNat - 48)) 0

/-- A nonempty string consisting only of decimal digits: the domain on which
the `float` conversion is modelled. -/
def isNatString (s : String) : Bool := !s.isEmpty && s.data.all (fun c => c.isDigit)

/-- Strict numeric comparison of digit strings, Python's `float(a) < float(b)`. -/
def numLt (a b : String) : Bool := digitVal a < digitVal b

theorem numLt_trans :
    ∀ a b c : String, numLt a b = true → numLt b c = true → numLt a c = true := by
  intro a b c h1 h2
  simp only [numLt, decide_eq_true_eq] at h1 h2 ⊢
  exact Nat.lt_trans h1 h2

theorem numLt_irrefl : ∀ a : String, numLt a a = false := by
  intro a; simp [numLt]

theorem numLt_negtrans :
    ∀ a b c : String, numLt a b = false → numLt b c = false → numLt a c = false := by
  intro a b c h1 h2
  simp only [numLt, decide_eq_false_iff_not, Nat.not_lt] at h1 h2 ⊢
  exact Nat.le_trans h2 h1

/-- One row of the `siegfried` sqlite table in hash mode (12 text columns,
created by `import_csv`, src/brunnhilde.py line 119).  All columns are text;
`nspace` embeds the source's `namespace` column (a Lean keyword). -/
structure Record where
  filename : String
  filesize : String
  modified : String
  errors : String
  hash : String
  nspace : String
  id : String
  format : String
  version : String
  mime : String
  basis : String
  warning : String
deriving DecidableEq, Repr

instance : Inhabited Record :=
  ⟨⟨"", "", "", "", "", "", "", "", "", "", "", ""⟩⟩

/-- A record with every column empty, for building concrete test rows. -/
def blankRecord : Record := default

/-- The CSV row of a record, in the column order of the hash-mode schema
(matches `full_header` of `generate_reports`, src/brunnhilde.py lines 318-320:
the checksum is column index 4). -/
def recordToRow (r : Record) : List String :=
  [r.filename, r.filesize, r.modified, r.errors, r.hash, r.nspace, r.id,
   r.format, r.version, r.mime, r.basis, r.warning]

/-- `SELECT COUNT(*) from siegfried` (src/brunnhilde.py line 136). -/
def numFiles (t : List Record) : Nat := t.length

/-- `SELECT COUNT(*) from siegfried where filesize='0'` (line 139). -/
def emptyFiles (t : List Record) : Nat :=
  (t.filter (fun r => r.filesize == "0")).length

/-- The rows selected by the duplicate queries (lines 146, 149, 374):
`WHERE EXISTS (SELECT 1 from siegfried t2 WHERE t2.hash = t1.hash AND
t1.filename != t2.filename) AND filesize<>'0'`. -/
def dupRows (t : List Record) : List Record :=
  t.filter (fun r => r.filesize != "0" &&
    t.any (fun r2 => r2.hash == r.hash && r2.filename != r.filename))

/-- `SELECT COUNT(hash) ...` over the duplicate rows (line 146-147); every
`hash` value is a (non-NULL) string, so `COUNT(hash)` counts the rows. -/
def allDupes (t : List Record) : Nat := (dupRows t).length

/-- `SELECT COUNT(DISTINCT hash) ...` over the duplicate rows (line 149-150). -/
def distinctDupes (t : List Record) : Nat :=
  (firstDedup ((dupRows t).map (fun r => r.hash))).length

/-- `duplicate_copies = int(all_dupes) - int(distinct_dupes)` (line 152),
Python integer subtraction. -/
def duplicateCopies (t : List Record) : Int :=
  (allDupes t : Int) - (distinctDupes t : Int)

/-- `SELECT COUNT(DISTINCT hash) from siegfried WHERE filesize<>'0'`
(line 143). -/
def distinctFiles (t : List Record) : Nat :=
  (firstDedup ((t.filter (fun r => r.filesize != "0")).map (fun r => r.hash))).length

/-- `SELECT COUNT(*) FROM siegfried WHERE id='UNKNOWN'` (line 155). -/
def unidentifiedFiles (t : List Record) : Nat :=
  (t.filter (fun r => r.id == "UNKNOWN")).length

/-- `SELECT COUNT(DISTINCT format) as formats from siegfried WHERE
format <> ''` (line 224). -/
def numFormats (t : List Record) : Nat :=
  (firstDedup ((t.filter (fun r => r.format != "")).map (fun r => r.format))).length

/-- SQLite `SUBSTR(s, 1, 4)`: the first four characters (fewer if the string
is shorter). -/
def substr4 (s : String) : String := ⟨s.data.take 4⟩

/-- The list of year strings over which `get_stats` computes the year range
(src/brunnhilde.py lines 158-180): `SELECT DISTINCT SUBSTR(modified, 1, 4)`,
round-tripped through a temporary CSV file.  The round trip is the identity
on the distinct values: `csv.writer` writes a lone empty field as a quoted
`""` line (never a blank line), `csv.reader` returns it as the one-field row
`['']`, and the `if row:` guard (line 179) keeps that non-empty list — so a
record with empty `modified` contributes the empty string. -/
def yearsList (t : List Record) : List String :=
  firstDedup (t.map (fun r => substr4 r.modified))

/-- The list of date strings over which `get_stats` computes the full date
range (lines 192-213): `SELECT DISTINCT modified`, round-tripped through a
temporary CSV exactly as for `yearsList` (again the identity on the distinct
values, empty strings included). -/
def datesList (t : List Record) : List String :=
  firstDedup (t.map (fun r => r.modified))

/-- The year range of `get_stats` (lines 181-186): `("N/A", "N/A")` when the
list is empty, otherwise `min`/`max` with `key=float`.  The `float`
conversion is modelled on decimal-digit strings (the shape of real year
prefixes); a list containing a string outside that domain — in particular
the empty string contributed by a record with empty `modified` — models the
`ValueError` that Python's `float` raises as `Except.error`. -/
def yearRange (t : List Record) : Except Unit (String × String) :=
  match yearsList t with
  | [] => .ok ("N/A", "N/A")
  | y :: ys =>
    if (y :: ys).all isNatString then
      .ok (foldMin numLt y ys, foldMax numLt y ys)
    else .error ()

/-- The full modification-date range of `get_stats` (lines 214-219):
`("N/A", "N/A")` when the list is empty, otherwise plain string `min`/`max`
(lexicographic by code point), which is total and never raises. -/
def dateRange (t : List Record) : String × String :=
  match datesList t with
  | [] => ("N/A", "N/A")
  | d :: ds => (foldMin lexStrLt d ds, foldMax lexStrLt d ds)

/-- Number of columns of the `siegfried` table created by `import_csv`
(src/brunnhilde.py lines 118-122): 12 when hashing is enabled, 11 otherwise. -/
def schemaLen (use_hash : Bool) : Nat := if use_hash then 12 else 11

/-- The body loop of `import_csv` (lines 125-128): a data row is inserted iff
its column count equals the header's (`rowlen`); an insert whose value count
differs from the table's column count makes sqlite raise (''table siegfried
has N columns but M values were supplied''), which propagates and aborts the
import, modelled as `Except.error`. -/
def importRows (use_hash : Bool) (rowlen : Nat) :
    List (List String) → Except Unit (List (List String))
  | [] => .ok []
  | row :: rest =>
    if row.length = rowlen then
      if rowlen = schemaLen use_hash then
        (importRows use_hash rowlen rest).map (fun tab => row :: tab)
      else .error ()
    else importRows use_hash rowlen rest

instance exceptDecEq {ε α : Type} [DecidableEq ε] [DecidableEq α] :
    DecidableEq (Except ε α) := fun x y =>
  match x, y with
  | .ok a, .ok b =>
    if h : a = b then isTrue (by rw [h])
    else isFalse (by intro hh; apply h; injection hh)
  | .error a, .error b =>
    if h : a = b then isTrue (by rw [h])
    else isFalse (by intro hh; apply h; injection hh)
  | .ok _, .error _ => isFalse (by intro hh; exact Except.noConfusion hh)
  | .error _, .ok _ => isFalse (by intro hh; exact Except.noConfusion hh)

/-- `import_csv` (src/brunnhilde.py lines 105-130) on an already-parsed row
stream: the first row is the header, whose length becomes `rowlen`; the
remaining rows run through `importRows`.  An empty stream never creates the
table (the loop body never runs), modelled as an error. -/
def import_csv (use_hash : Bool) :
    List (List String) → Except Unit (List (List String))
  | [] => .error ()
  | header :: rest => importRows use_hash header.length rest

/-- Descending insertion by a natural-number key. -/
def insertByKeyDesc {α : Type} (key : α → Nat) (x : α) : List α → List α
  | [] => [x]
  | y :: ys => if key y < key x then x :: y :: ys else y :: insertByKeyDesc key x ys

/-- Insertion sort by descending natural-number key, modelling SQL
`ORDER BY num DESC` (the relative order of equal counts is unspecified in
SQLite; the theorems below only use sortedness and the multiset of entries,
which any compliant order satisfies). -/
def sortByKeyDesc {α : Type} (key : α → Nat) : List α → List α
  | [] => []
  | x :: xs => insertByKeyDesc key x (sortByKeyDesc key xs)

theorem insertByKeyDesc_perm {α : Type} (key : α → Nat) (x : α) :
    ∀ l : List α, (insertByKeyDesc key x l).Perm (x :: l) := by
  intro l
  induction l with
  | nil => simp [insertByKeyDesc]
  | cons y ys ih =>
    by_cases h : key y < key x
    · simp [insertByKeyDesc, h]
    · rw [show insertByKeyDesc key x (y :: ys) = y :: insertByKeyDesc key x ys from by
        simp [insertByKeyDesc, h]]
      exact (ih.cons y).trans (List.Perm.swap x y ys)

theorem sortByKeyDesc_perm {α : Type} (key : α → Nat) :
    ∀ l : List α, (sortByKeyDesc key l).Perm l := by
  intro l
  induction l with
  | nil => simp [sortByKeyDesc]
  | cons x xs ih =>
    exact (insertByKeyDesc_perm key x (sortByKeyDesc key xs)).trans (ih.cons x)

theorem insertByKeyDesc_sorted {α : Type} (key : α → Nat) (x : α) (l : List α)
    (h : l.Pairwise (fun a b => key b ≤ key a)) :
    (insertByKeyDesc key x l).Pairwise (fun a b => key b ≤ key a) := by
  induction l with
  | nil => simp [insertByKeyDesc]
  | cons y ys ih =>
    rcases List.pairwise_cons.1 h with ⟨hy, hys⟩
    by_cases hc : key y < key x
    · rw [show insertByKeyDesc key x (y :: ys) = x :: y :: ys from by
        simp [insertByKeyDesc, hc]]
      refine List.pairwise_cons.2 ⟨?_, h⟩
      intro a ha
      rcases List.mem_cons.1 ha with rfl | ha'
      · exact Nat.le_of_lt hc
      · exact Nat.le_trans (hy a ha') (Nat.le_of_lt hc)
    · rw [show insertByKeyDesc key x (y :: ys) = y :: insertByKeyDesc key x ys from by
        simp [insertByKeyDesc, hc]]
      refine List.pairwise_cons.2 ⟨?_, ih hys⟩
      intro a ha
      have := (insertByKeyDesc_perm key x ys).mem_iff.1 ha
      rcases List.mem_cons.1 this with rfl | ha'
      · exact Nat.le_of_not_lt hc
      · exact hy a ha'

theorem sortByKeyDesc_sorted {α : Type} (key : α → Nat) :
    ∀ l : List α, (sortByKeyDesc key l).Pairwise (fun a b => key b ≤ key a) := by
  intro l
  induction l with
  | nil => simp [sortByKeyDesc]
  | cons x xs ih => exact insertByKeyDesc_sorted key x _ ih

/-- `SELECT format, id, COUNT(*) as 'num' FROM siegfried GROUP BY format
ORDER BY num DESC` (src/brunnhilde.py line 326).  Groups are keyed by
`format` alone; the bare `id` column is a representative value that SQLite
takes from an arbitrary row of the group, modelled here as the group's first
row (no theorem below depends on which row is chosen). -/
def formatsReport (t : List Record) : List (String × String × Nat) :=
  sortByKeyDesc (fun e => e.2.2)
    ((firstDedup (t.map (fun r => r.format))).map (fun f =>
      (f, (((t.find? (fun r => r.format == f)).map (fun r => r.id)).getD ""),
       (t.filter (fun r => r.format == f)).length)))

/-- `SELECT format, id, version, COUNT(*) as 'num' FROM siegfried GROUP BY
format, version ORDER BY num DESC` (line 333).  Groups are keyed by the pair
`(format, version)`; the bare `id` is again a representative. -/
def versionsReport (t : List Record) : List (String × String × String × Nat) :=
  sortByKeyDesc (fun e => e.2.2.2)
    ((firstDedup (t.map (fun r => (r.format, r.version)))).map (fun k =>
      (k.1,
       (((t.find? (fun r => r.format == k.1 && r.version == k.2)).map
          (fun r => r.id)).getD ""),
       k.2,
       (t.filter (fun r => r.format == k.1 && r.version == k.2)).length)))

/-- Rendering of the claim's words for the File formats section, for
comparison: one group per distinct `(format, id)` pair, ordered by
descending count. -/
def claimedFormatsReport (t : List Record) : List (String × String × Nat) :=
  sortByKeyDesc (fun e => e.2.2)
    ((firstDedup (t.map (fun r => (r.format, r.id)))).map (fun k =>
      (k.1, k.2,
       (t.filter (fun r => r.format == k.1 && r.id == k.2)).length)))

/-- Rendering of the claim's words for the File formats and versions
section: one group per distinct `(format, id, version)` triple, ordered by
descending count. -/
def claimedVersionsReport (t : List Record) : List (String × String × String × Nat) :=
  sortByKeyDesc (fun e => e.2.2.2)
    ((firstDedup (t.map (fun r => (r.format, r.id, r.version)))).map (fun k =>
      (k.1, k.2.1, k.2.2,
       (t.filter (fun r =>
         r.format == k.1 && r.id == k.2.1 && r.version == k.2.2)).length)))

/-- Rendering of claim C2's words ''the number of distinct hash values with
at least two differently-named members'', for comparison with the code's
`distinctDupes`. -/
def claimedDistinctDupes (t : List Record) : Nat :=
  ((firstDedup (t.map (fun r => r.hash))).filter (fun h =>
    t.any (fun r1 => r1.hash == h &&
      t.any (fun r2 => r2.hash == h && r2.filename != r1.filename)))).length

/-- The HTML fragment written for one data cell (`'\n<td>' + column +
'</td>'`, src/brunnhilde.py line 430/465/486). -/
def tdPiece (c : String) : String := "\n<td>" ++ c ++ "</td>"

/-- The write calls for one data row: `<tr>`, its cells, `</tr>`. -/
def rowPieces (row : List String) : List String :=
  "\n<tr>" :: (row.map tdPiece ++ ["\n</tr>"])

/-- The exact string of every table-opening write call of `write_html`
(lines 417, 450, 474). -/
def tablePiece : String :=
  "\n<table class=\"table table-striped table-bordered table-condensed\">"

/-- The placeholder write call for an empty section (lines 434, 469, 490). -/
def noneFoundPiece : String := "\nNone found."

/-- A header cell of the flat-table branch (line 479). -/
def headerCellPiece (c : String) : String :=
  "\n<td><strong>" ++ c ++ "</strong></td>"

/-- The six fixed header writes of a duplicate group's table
(lines 452-457). -/
def dupGroupHeaderPieces : List String :=
  ["\n<td><strong>Filename</strong></td><td><strong>Filesize</strong></td>",
   "<td><strong>Date modified</strong></td><td><strong>Errors</strong></td>",
   "<td><strong>Checksum</strong></td><td><strong>Namespace</strong></td>",
   "<td><strong>ID</strong></td><td><strong>Format</strong></td>",
   "<td><strong>Format version</strong></td><td><strong>MIME type</strong></td>",
   "<td><strong>Basis for ID</strong></td><td><strong>Warning</strong></td>"]

/-- The flat-table body of `write_html` (lines 473-488), reached when the CSV
has more than one line: header row from the CSV's first row, then the data
rows. -/
def normalBody : List (List String) → List String
  | [] => []
  | row1 :: rest =>
    tablePiece :: "\n<tr>" :: (row1.map headerCellPiece ++ ["\n</tr>"] ++
      rest.flatMap rowPieces ++ ["\n</table>"])

/-- The Duplicates body of `write_html` (lines 438-467): hash values are
collected from column 4 of every CSV row (header included), deduplicated
preserving first occurrence (`OrderedDict.fromkeys`), the header label
`'Checksum'` is removed (`list.remove`, the first occurrence), and each
remaining hash value gets a caption plus its own sub-table of the rows whose
column 4 equals it.  `row.getD 4 ""` models Python's `row[4]`, total here
because every duplicates-CSV row has 12 columns. -/
def dupBody (rows : List (List String)) : List String :=
  ((firstDedup (rows.map (fun row => row.getD 4 ""))).erase "Checksum").flatMap
    (fun h =>
      ("\n<p>Files matching checksum <strong>" ++ h ++ "</strong>:</p>") ::
      tablePiece :: "\n<tr>" :: (dupGroupHeaderPieces ++ ["\n</tr>"] ++
        (rows.filter (fun row => row.getD 4 "" == h)).flatMap rowPieces ++
        ["\n</table>"]))

/-- The PII body of `write_html` (lines 415-432), reached when the source log
has more than five lines: fixed header labels, then (because the
`islice(r, 4, None)` loop skips the first four rows, discards the fifth, and
the inner loop renders the rest) the rows from index 5 on. -/
def piiBody (rows : List (List String)) : List String :=
  tablePiece :: "\n<tr>" :: "\n<td><strong>File</strong></td>" ::
  "\n<td><strong>Value Found</strong></td>" ::
  "\n<td><strong>Context</strong></td>" :: "\n</tr>" ::
  ((rows.drop 5).flatMap rowPieces ++ ["\n</table>"])

/-- `write_html` (src/brunnhilde.py lines 393-494) as the sequence of strings
passed to `html.write`, one list element per write call.  `rows` is the
parsed content of the section's CSV file (or tab-separated PII log): its
header line first, then the data lines; `numline` of the source is
`rows.length` (the fields of these files contain no newlines, so file lines
and CSV rows coincide). -/
def write_html (header : String) (rows : List (List String)) : List String :=
  ("\n<a name=\"" ++ header ++ "\"></a>") ::
  ("\n<h3>" ++ header ++ "</h3>") ::
  ((if header == "Duplicates" then
      ["\n<p><em>Duplicates are grouped by hash value.</em></p>"]
    else if header == "Personally Identifiable Information (PII)" then
      ["\n<p><em>Potential PII in source, as identified by bulk_extractor.</em></p>"]
    else []) ++
   (if header == "Personally Identifiable Information (PII)" then
      (if rows.length > 5 then piiBody rows else [noneFoundPiece])
    else if header == "Duplicates" then
      (if rows.length > 1 then dupBody rows else [noneFoundPiece])
    else
      (if rows.length > 1 then normalBody rows else [noneFoundPiece])) ++
   ["\n<p>(<a href=\"#top\">Return to top</a>)</p>"])

/-- `full_header` of `generate_reports` in hash mode (lines 318-320). -/
def fullHeader : List String :=
  ["Filename", "Filesize", "Date modified", "Errors", "Checksum",
   "Namespace", "ID", "Format", "Format version", "MIME type",
   "Basis for ID", "Warning"]

/-- The duplicates CSV written by `generate_reports` (lines 372-376):
`full_header` then the rows of the duplicates query.  The query's
`ORDER BY hash` leaves the order within equal hashes unspecified; the
theorems below are insensitive to row order, so the filter order is used. -/
def duplicatesCsv (t : List Record) : List (List String) :=
  fullHeader :: (dupRows t).map recordToRow

/-- The seven always-flat report sections of `generate_reports`
(lines 326-370), paired with their CSV header rows. -/
def flatSections : List (String × List String) :=
  [("File formats", ["Format", "ID", "Count"]),
   ("File formats and versions", ["Format", "ID", "Version", "Count"]),
   ("MIME types", ["MIME type", "Count"]),
   ("Last modified dates by year", ["Year Last Modified", "Count"]),
   ("Unidentified", fullHeader),
   ("Warnings", fullHeader),
   ("Errors", fullHeader)]

/-- Whether `pat` is an initial segment of `s` (character lists). -/
def listStarts : List Char → List Char → Bool
  | [], _ => true
  | _ :: _, [] => false
  | p :: ps, c :: cs => p == c && listStarts ps cs

/-- Fuel-indexed worker for `replaceAll`; each step consumes at least one
character of `s`, so fuel `s.length` always suffices. -/
def replaceAllFuel (pat rep : List Char) : Nat → List Char → List Char
  | 0, s => s
  | _ + 1, [] => []
  | fuel + 1, c :: s =>
    if listStarts pat (c :: s) then
      rep ++ replaceAllFuel pat rep fuel ((c :: s).drop pat.length)
    else c :: replaceAllFuel pat rep fuel s

/-- Python's `str.replace(pat, rep)`: replace every occurrence, scanning left
to right without overlap.  The pattern is never empty at any call site below
(`re.findall` matches are at least five characters long). -/
def replaceAll (s pat rep : List Char) : List Char :=
  if pat.isEmpty then s else replaceAllFuel pat rep s.length s

/-- One attempt of the regex `fmt\/[0-9]+|x\-fmt\/[0-9]+` at the head of the
input (src/brunnhilde.py line 528): the first alternative, then the second,
each a literal followed by one or more digits (greedy).  Returns the matched
text and the remaining input. -/
def pronomMatchAt (cs : List Char) : Option (List Char × List Char) :=
  if listStarts ['f', 'm', 't', '/'] cs then
    let p := (cs.drop 4).span (fun c => c.isDigit)
    if p.1.isEmpty then none else some (['f', 'm', 't', '/'] ++ p.1, p.2)
  else if listStarts ['x', '-', 'f', 'm', 't', '/'] cs then
    let p := (cs.drop 6).span (fun c => c.isDigit)
    if p.1.isEmpty then none
    else some (['x', '-', 'f', 'm', 't', '/'] ++ p.1, p.2)
  else none

/-- Fuel-indexed worker for `findall`: scan left to right, at each position
try the pattern; on a match, emit it and continue after it, else advance one
character.  Each step consumes at least one character, so fuel `cs.length`
always suffices. -/
def findallFuel : Nat → List Char → List (List Char)
  | 0, _ => []
  | _ + 1, [] => []
  | fuel + 1, c :: rest =>
    match pronomMatchAt (c :: rest) with
    | some (m, rest') => m :: findallFuel fuel rest'
    | none => findallFuel fuel rest

/-- Python's `re.findall(r"fmt\/[0-9]+|x\-fmt\/[0-9]+", line)`: the list of
non-overlapping matches, left to right. -/
def findall (cs : List Char) : List (List Char) := findallFuel cs.length cs

/-- The replacement text built for a match (src/brunnhilde.py lines
532-533). -/
def pronomLink (m : List Char) : List Char :=
  "<a href=\"http://nationalarchives.gov.uk/PRONOM/".data ++ m ++
  "\" target=\"_blank\">".data ++ m ++ "</a>".data

/-- The same link text at the string level, for stating expected outputs. -/
def pronomLinkStr (m : String) : String :=
  "<a href=\"http://nationalarchives.gov.uk/PRONOM/" ++ m ++
  "\" target=\"_blank\">" ++ m ++ "</a>"

/-- The per-line loop of `write_pronom_links` (src/brunnhilde.py lines
527-535): collect all matches of the PUID regex, then for each match in turn
set `line = line.replace(match, link)` — note `str.replace` replaces every
occurrence of the match text, including text created by earlier
replacements. -/
def rewrite_line (line : String) : String :=
  ⟨(findall line.data).foldl (fun l m => replaceAll l m (pronomLink m)) line.data⟩

/-- `write_pronom_links` over a document given as its list of lines: each
line is rewritten independently and the line order is preserved. -/
def write_pronom_links (lines : List String) : List String :=
  lines.map rewrite_line

/-- Worker for `strContainsSub`: does `pat` start at some position? -/
def strContainsAux (pat : List Char) : List Char → Bool
  | [] => pat.isEmpty
  | c :: cs => listStarts pat (c :: cs) || strContainsAux pat cs

/-- Whether `pat` occurs as a contiguous substring of `hay`. -/
def strContainsSub (hay pat : String) : Bool := strContainsAux pat.data hay.data

/-- Example row A of the spec's duplicate-detection test: size 10, hash H1. -/
def exRowA : Record :=
  { blankRecord with filename := "A", filesize := "10", hash := "H1" }

/-- Example row B of the spec's duplicate-detection test: size 10, hash H1. -/
def exRowB : Record :=
  { blankRecord with filename := "B", filesize := "10", hash := "H1" }

/-- Example row C of the spec's duplicate-detection test: size 0, hash H1. -/
def exRowC : Record :=
  { blankRecord with filename := "C", filesize := "0", hash := "H1" }

/-- Example row D of the spec's duplicate-detection test: size 5, hash H2. -/
def exRowD : Record :=
  { blankRecord with filename := "D", filesize := "5", hash := "H2" }

/-- The spec's duplicate-detection example table. -/
def exDupTable : List Record := [exRowA, exRowB, exRowC, exRowD]

/-- An empty file named A whose hash is H1. -/
def exEmptyA : Record :=
  { blankRecord with filename := "A", filesize := "0", hash := "H1" }

/-- An empty file named B whose hash is H1. -/
def exEmptyB : Record :=
  { blankRecord with filename := "B", filesize := "0", hash := "H1" }

/-- A record with a modification date. -/
def exMod2005 : Record := { blankRecord with modified := "2005-01-01" }

/-- A record with an empty modification date. -/
def exModEmpty : Record := { blankRecord with modified := "" }

/-- A record modified in 2003. -/
def exMod2003 : Record := { blankRecord with modified := "2003-05" }

/-- A record modified in 1999. -/
def exMod1999 : Record := { blankRecord with modified := "1999-12-31" }

/-- A record of format F identified as fmt/1. -/
def exFmt1 : Record :=
  { blankRecord with filename := "a", format := "F", id := "fmt/1" }

/-- A record of format F identified as fmt/2. -/
def exFmt2 : Record :=
  { blankRecord with filename := "b", format := "F", id := "fmt/2" }

/-- An unidentified record that nevertheless carries a format string. -/
def exUnknownPdf : Record :=
  { blankRecord with filename := "a", id := "UNKNOWN", format := "PDF" }

/-- An unidentified record with an empty format. -/
def exUnknownBlank : Record :=
  { blankRecord with filename := "a", id := "UNKNOWN" }

/-- A non-empty file whose recorded checksum is the literal string
`Checksum`, colliding with the duplicates-CSV header label. -/
def exCk1 : Record :=
  { blankRecord with filename := "f1", filesize := "10", hash := "Checksum" }

/-- A second, differently named file with the same colliding checksum. -/
def exCk2 : Record :=
  { blankRecord with filename := "f2", filesize := "10", hash := "Checksum" }

/-- C6: an imported table with zero rows yields year range `("N/A", "N/A")`
and full date range `("N/A", "N/A")` — both ends the identical sentinel —
and raises no exception (the year computation returns `Except.ok`). -/
theorem c6_empty_table_ranges :
    yearRange [] = .ok ("N/A", "N/A") ∧ dateRange [] = ("N/A", "N/A") := by
  exact ⟨rfl, rfl⟩

/-- C1 (code bug evidence): the rewriter handles two distinct identifiers on
one line correctly, but a line containing the same identifier twice is NOT
rewritten to two well-formed links: because `str.replace` replaces every
occurrence and the loop then re-replaces the identifier text inside the
already-generated anchor's href and label, the output contains the nested
fragment `PRONOM/<a href=`. -/
theorem c1_pronom_rewrite_clobbers :
    rewrite_line "<p>fmt/101 and x-fmt/102</p>" =
      "<p>" ++ pronomLinkStr "fmt/101" ++ " and " ++
        pronomLinkStr "x-fmt/102" ++ "</p>" ∧
    rewrite_line "<p>fmt/101 fmt/101</p>" ≠
      "<p>" ++ pronomLinkStr "fmt/101" ++ " " ++
        pronomLinkStr "fmt/101" ++ "</p>" ∧
    strContainsSub (rewrite_line "<p>fmt/101 fmt/101</p>") "PRONOM/<a href=" = true := by
  set_option maxRecDepth 100000 in
  refine ⟨by decide, by decide, by decide⟩

/-- C9 (counterexample): a table whose single row has `id = "UNKNOWN"` but
`format = "PDF"` satisfies the claim's hypothesis, and the unidentified
count does equal the row count, yet the identified-format count is 1, not 0:
the format query filters only on `format <> ''`, never on `id`. -/
theorem c9_counterexample :
    exUnknownPdf.id = "UNKNOWN" ∧
    unidentifiedFiles [exUnknownPdf] = numFiles [exUnknownPdf] ∧
    numFormats [exUnknownPdf] = 1 := by
  refine ⟨by decide, by decide, by decide⟩

/-- C9 (amended): if every row has `id = "UNKNOWN"` then the unidentified
count equals the total row count; and if additionally every row's `format`
is empty, the identified-format count is 0. -/
theorem c9_unidentified (t : List Record) (h : ∀ r ∈ t, r.id = "UNKNOWN") :
    unidentifiedFiles t = numFiles t ∧
    ((∀ r ∈ t, r.format = "") → numFormats t = 0) := by
  constructor
  · unfold unidentifiedFiles numFiles
    rw [List.filter_eq_self.2 (fun r hr => by simp [h r hr])]
  · intro hf
    unfold numFormats
    rw [List.filter_eq_nil_iff.2 (fun r hr => by simp [hf r hr])]
    rfl

/-- C9 (witness): the amended theorem applied to a concrete one-row table. -/
theorem c9_unidentified_witness :
    unidentifiedFiles [exUnknownBlank] = numFiles [exUnknownBlank] ∧
    numFormats [exUnknownBlank] = 0 :=
  ⟨(c9_unidentified [exUnknownBlank] (by decide)).1,
   (c9_unidentified [exUnknownBlank] (by decide)).2 (by decide)⟩

/-- C4 (counterexample): a stream whose header has one column, followed by a
one-column data row, does not import that row silently — the insert's value
count differs from the table's fixed column count (12 in hash mode), sqlite
raises, and the import aborts; the claim instead predicts a one-row store. -/
theorem c4_counterexample :
    import_csv true [["a"], ["b"]] = .error () ∧
    import_csv true [["a"], ["b"]] ≠ .ok [["b"]] := by
  refine ⟨by decide, by decide⟩

/-- C4 (amended): for every input stream whose first row is a header with the
run's schema column count (12 in hash mode, 11 otherwise), the import
succeeds and the resulting table is exactly the data rows whose column count
equals the header's, in order and verbatim; rows with a deviating column
count are skipped without aborting and appear in no count. -/
theorem c4_import (use_hash : Bool) (header : List String)
    (data : List (List String)) (h : header.length = schemaLen use_hash) :
    import_csv use_hash (header :: data) =
      .ok (data.filter (fun row => row.length == header.length)) := by
  show importRows use_hash header.length data = _
  induction data with
  | nil => rfl
  | cons row rest ih =>
    by_cases hr : row.length = header.length
    · simp only [importRows, if_pos hr, if_pos h, ih, Except.map,
        List.filter_cons, hr]
      simp
    · simp only [importRows, if_neg hr, ih, List.filter_cons]
      simp [hr]

/-- C4 (witness): the amended theorem at a concrete hash-mode stream with one
well-formed and one malformed data row: the former is imported, the latter
skipped. -/
theorem c4_import_witness :
    import_csv true (fullHeader :: [recordToRow exRowA, ["x", "y"]]) =
      .ok [recordToRow exRowA] :=
  (c4_import true fullHeader [recordToRow exRowA, ["x", "y"]] (by decide)).trans
    (by decide)

theorem mem_dupRows (t : List Record) (r : Record) :
    r ∈ dupRows t ↔ r ∈ t ∧ r.filesize ≠ "0" ∧
      ∃ r2 ∈ t, r2.hash = r.hash ∧ r2.filename ≠ r.filename := by
  simp [dupRows, List.mem_filter, List.any_eq_true]

/-- C2 (counterexample): two empty files with different names and the same
hash.  The claim's phrase ''distinct-duplicate count is the number of
distinct hash values with at least two differently-named members'' counts
hash H1 (members A and B bear it under different names), but the code's
distinct-duplicate count is 0 — the query also requires a non-empty-file
member — as is its total-duplicate count. -/
theorem c2_counterexample :
    claimedDistinctDupes [exEmptyA, exEmptyB] = 1 ∧
    distinctDupes [exEmptyA, exEmptyB] = 0 ∧
    allDupes [exEmptyA, exEmptyB] = 0 ∧
    claimedDistinctDupes [exEmptyA, exEmptyB] ≠ distinctDupes [exEmptyA, exEmptyB] := by
  refine ⟨by decide, by decide, by decide, by decide⟩

/-- C2 (amended): a record is counted as a duplicate iff it is a non-empty
file sharing its hash with at least one other record of a different
filename; the total-duplicate count is the number of such records; the
distinct-duplicate count is the number of distinct hash values that have a
non-empty-file member and at least two differently-named members; and the
duplicate-copy count is their difference.  On the spec's example table the
counts are distinct-duplicates 1, total-duplicates 2, duplicate copies 1. -/
theorem c2_duplicate_stats :
    (∀ t : List Record,
      (∀ r : Record, r ∈ dupRows t ↔ r ∈ t ∧ r.filesize ≠ "0" ∧
        ∃ r2 ∈ t, r2.hash = r.hash ∧ r2.filename ≠ r.filename) ∧
      allDupes t = t.countP (fun r => decide (r.filesize ≠ "0" ∧
        ∃ r2 ∈ t, r2.hash = r.hash ∧ r2.filename ≠ r.filename)) ∧
      distinctDupes t = ((firstDedup (t.map (fun r => r.hash))).filter (fun h =>
        decide ((∃ r ∈ t, r.filesize ≠ "0" ∧ r.hash = h) ∧
          ∃ r1 ∈ t, ∃ r2 ∈ t, r1.hash = h ∧ r2.hash = h ∧
            r1.filename ≠ r2.filename))).length ∧
      duplicateCopies t = (allDupes t : Int) - (distinctDupes t : Int)) ∧
    distinctDupes exDupTable = 1 ∧ allDupes exDupTable = 2 ∧
    duplicateCopies exDupTable = 1 := by
  refine ⟨fun t => ⟨mem_dupRows t, ?_, ?_, rfl⟩, by decide, by decide, by decide⟩
  · rw [allDupes, dupRows, ← List.countP_eq_length_filter]
    refine List.countP_congr fun r hr => ?_
    simp [List.any_eq_true]
  · refine List.Perm.length_eq
      ((List.perm_ext_iff_of_nodup (nodup_firstDedup _)
        ((nodup_firstDedup _).filter _)).2 fun h => ?_)
    constructor
    · intro hmem
      rcases List.mem_map.1 (mem_firstDedup.1 hmem) with ⟨r, hrd, rfl⟩
      rcases (mem_dupRows t r).1 hrd with ⟨hrt, hrs, r2, hr2t, hh, hn⟩
      refine List.mem_filter.2 ⟨mem_firstDedup.2 (List.mem_map.2 ⟨r, hrt, rfl⟩), ?_⟩
      simp only [decide_eq_true_eq]
      exact ⟨⟨r, hrt, hrs, rfl⟩, r2, hr2t, r, hrt, hh, rfl, hn⟩
    · intro hmem
      rcases List.mem_filter.1 hmem with ⟨_, hpred⟩
      simp only [decide_eq_true_eq] at hpred
      rcases hpred with ⟨⟨r0, hr0t, hr0s, hr0h⟩, r1, hr1t, r2, hr2t, h1h, h2h, hnames⟩
      refine mem_firstDedup.2 (List.mem_map.2 ⟨r0, ?_, hr0h⟩)
      refine (mem_dupRows t r0).2 ⟨hr0t, hr0s, ?_⟩
      by_cases hc : r1.filename = r0.filename
      · exact ⟨r2, hr2t, h2h.trans hr0h.symm, fun he => hnames (hc.trans he.symm)⟩
      · exact ⟨r1, hr1t, h1h.trans hr0h.symm, hc⟩

/-- C7 (counterexample): a table whose rows carry the modified values
`"2005-01-01"` and `""`.  The claim promises a reported numeric year range
over the distinct prefixes — here the set contains the non-numeric empty
string (the CSV round trip keeps it: `csv.writer` quotes a lone empty field,
`csv.reader` returns `['']`, which `if row:` keeps) — but `float('')`
raises `ValueError`, so `get_stats` aborts and no range of either kind is
reported. -/
theorem c7_counterexample :
    "" ∈ yearsList [exMod2005, exModEmpty] ∧
    yearRange [exMod2005, exModEmpty] = .error () ∧
    yearRange [exMod2005, exModEmpty] ≠ .ok ("2005", "2005") := by
  refine ⟨by decide, by decide, by decide⟩

/-- C7 (amended): for every non-empty imported table all of whose distinct
4-character modified prefixes are decimal numerals (in particular, no
record's modified value is empty), the reported full date range is the
lexicographic (string-order) minimum and maximum over the distinct modified
values, and the reported year range is the numeric minimum and maximum over
the distinct prefixes, computed without error; a table with an empty or
otherwise non-numeric prefix instead makes the year computation raise. -/
theorem c7_range_minmax (t : List Record) (hne : t ≠ [])
    (hdig : ∀ y ∈ yearsList t, isNatString y = true) :
    ((dateRange t).1 ∈ datesList t ∧
      (∀ x ∈ datesList t, lexStrLt x (dateRange t).1 = false) ∧
      (dateRange t).2 ∈ datesList t ∧
      (∀ x ∈ datesList t, lexStrLt (dateRange t).2 x = false)) ∧
    (∃ b e, yearRange t = .ok (b, e) ∧ b ∈ yearsList t ∧ e ∈ yearsList t ∧
      (∀ x ∈ yearsList t, digitVal b ≤ digitVal x) ∧
      (∀ x ∈ yearsList t, digitVal x ≤ digitVal e)) := by
  have strTrans : ∀ a b c : String,
      lexStrLt a b = true → lexStrLt b c = true → lexStrLt a c = true :=
    fun a b c => lexLt_trans a.data b.data c.data
  have strIrrefl : ∀ a : String, lexStrLt a a = false :=
    fun a => lexLt_irrefl a.data
  have strNegtrans : ∀ a b c : String,
      lexStrLt a b = false → lexStrLt b c = false → lexStrLt a c = false :=
    fun a b c => lexLt_negtrans a.data b.data c.data
  have hmapne : ∀ f : Record → String, t.map f ≠ [] := by
    intro f hmap
    exact hne (List.map_eq_nil_iff.1 hmap)
  have hdn : datesList t ≠ [] := firstDedup_ne_nil (hmapne _)
  have hyn : yearsList t ≠ [] := firstDedup_ne_nil (hmapne _)
  constructor
  · rcases List.exists_cons_of_ne_nil hdn with ⟨d, ds, hd⟩
    have hdr : dateRange t = (foldMin lexStrLt d ds, foldMax lexStrLt d ds) := by
      unfold dateRange
      rw [hd]
    rw [hdr, hd]
    exact ⟨foldMin_mem _ ds d,
      fun x hx => foldMin_not_lt _ strTrans strIrrefl strNegtrans ds d x hx,
      foldMax_mem _ ds d,
      fun x hx => foldMax_not_lt _ strTrans strIrrefl strNegtrans ds d x hx⟩
  · rcases List.exists_cons_of_ne_nil hyn with ⟨y, ys, hy⟩
    have hall : (y :: ys).all isNatString = true := by
      rw [List.all_eq_true]
      intro x hx
      exact hdig x (hy ▸ hx)
    have hyr : yearRange t = .ok (foldMin numLt y ys, foldMax numLt y ys) := by
      unfold yearRange
      rw [hy]
      simp [hall]
    refine ⟨_, _, hyr, hy ▸ foldMin_mem _ ys y, hy ▸ foldMax_mem _ ys y, ?_, ?_⟩
    · intro x hx
      rw [hy] at hx
      have := foldMin_not_lt numLt numLt_trans numLt_irrefl numLt_negtrans ys y x hx
      exact Nat.le_of_not_lt (by simpa [numLt] using this)
    · intro x hx
      rw [hy] at hx
      have := foldMax_not_lt numLt numLt_trans numLt_irrefl numLt_negtrans ys y x hx
      exact Nat.le_of_not_lt (by simpa [numLt] using this)

/-- C7 (witness): the amended theorem at a two-row table with dates in 2003
and 1999: the reported earliest date is one of the values and is not above
the 2003 date. -/
theorem c7_range_minmax_witness :
    (dateRange [exMod2003, exMod1999]).1 ∈ datesList [exMod2003, exMod1999] ∧
    lexStrLt "2003-05" (dateRange [exMod2003, exMod1999]).1 = false :=
  ⟨(c7_range_minmax [exMod2003, exMod1999] (by decide) (by decide)).1.1,
   (c7_range_minmax [exMod2003, exMod1999] (by decide) (by decide)).1.2.1
     "2003-05" (by decide)⟩

/-- C10 (counterexample): a non-empty table whose single row has empty
`modified`.  The claim says the empty value is written as a blank line,
read back as an empty row, skipped, and the sentinels result; in fact
`csv.writer` writes the lone empty field quoted, `csv.reader` returns
`['']` which the `if row:` guard keeps, the empty string reaches both
lists, and `min(years, key=float)` raises `ValueError` on `float('')`
instead of yielding `("N/A", "N/A")`. -/
theorem c10_counterexample :
    "" ∈ yearsList [exModEmpty] ∧ "" ∈ datesList [exModEmpty] ∧
    yearRange [exModEmpty] = .error () ∧
    yearRange [exModEmpty] ≠ .ok ("N/A", "N/A") := by
  refine ⟨by decide, by decide, by decide, by decide⟩

/-- C10 (amended): a record with empty `modified` contributes the empty
string to both the distinct-year and distinct-date lists (the temporary-CSV
round trip preserves it), and since `float('')` raises `ValueError`, every
table containing such a record makes the year-range computation raise a
conversion error — it aborts `get_stats` rather than yielding the
`("N/A", "N/A")` sentinels. -/
theorem c10_empty_modified_propagates (t : List Record) (r : Record)
    (hr : r ∈ t) (hm : r.modified = "") :
    "" ∈ yearsList t ∧ "" ∈ datesList t ∧ yearRange t = .error () := by
  have hy : "" ∈ yearsList t := by
    refine mem_firstDedup.2 (List.mem_map.2 ⟨r, hr, ?_⟩)
    rw [hm]
    rfl
  have hd : "" ∈ datesList t := mem_firstDedup.2 (List.mem_map.2 ⟨r, hr, hm⟩)
  refine ⟨hy, hd, ?_⟩
  rcases List.exists_cons_of_ne_nil (List.ne_nil_of_mem hy) with ⟨y, ys, hys⟩
  have hallfalse : (y :: ys).all isNatString = false := by
    cases hb : (y :: ys).all isNatString with
    | false => rfl
    | true =>
      have hnat := List.all_eq_true.1 hb "" (hys ▸ hy)
      exact absurd hnat (by decide)
  unfold yearRange
  rw [hys]
  simp [hallfalse]

/-- C10 (witness): the amended theorem at a two-row table with one dated and
one empty-`modified` record: the empty string is in both lists and the year
computation errors. -/
theorem c10_empty_modified_witness :
    "" ∈ yearsList [exMod2003, exModEmpty] ∧
    "" ∈ datesList [exMod2003, exModEmpty] ∧
    yearRange [exMod2003, exModEmpty] = .error () :=
  c10_empty_modified_propagates [exMod2003, exModEmpty] exModEmpty
    (by decide) (by decide)

/-- C3 (counterexample): two records share format F but have different ids
(and empty versions).  Grouping by the pair (format, id) would yield two
groups — and by (format, id, version) two groups — but the code's queries
group by `format` alone (resp. `format, version`) and yield one row each. -/
theorem c3_counterexample :
    (formatsReport [exFmt1, exFmt2]).length = 1 ∧
    (claimedFormatsReport [exFmt1, exFmt2]).length = 2 ∧
    formatsReport [exFmt1, exFmt2] ≠ claimedFormatsReport [exFmt1, exFmt2] ∧
    (versionsReport [exFmt1, exFmt2]).length = 1 ∧
    (claimedVersionsReport [exFmt1, exFmt2]).length = 2 ∧
    versionsReport [exFmt1, exFmt2] ≠ claimedVersionsReport [exFmt1, exFmt2] := by
  refine ⟨by decide, by decide, by decide, by decide, by decide, by decide⟩

/-- C3 (amended): the File formats section groups records by `format` alone
(the displayed id is a representative from the group) and the File formats
and versions section groups by the pair `(format, version)`; both are
ordered by descending count: each report is sorted by non-increasing count,
and its (key, count) pairs are exactly the distinct keys of the table with
the number of rows carrying that key. -/
theorem c3_report_grouping (t : List Record) :
    (formatsReport t).Pairwise (fun a b => b.2.2 ≤ a.2.2) ∧
    ((formatsReport t).map (fun e => (e.1, e.2.2))).Perm
      ((firstDedup (t.map (fun r => r.format))).map (fun f =>
        (f, (t.filter (fun r => r.format == f)).length))) ∧
    (versionsReport t).Pairwise (fun a b => b.2.2.2 ≤ a.2.2.2) ∧
    ((versionsReport t).map (fun e => ((e.1, e.2.2.1), e.2.2.2))).Perm
      ((firstDedup (t.map (fun r => (r.format, r.version)))).map (fun k =>
        (k, (t.filter (fun r => r.format == k.1 && r.version == k.2)).length))) := by
  refine ⟨sortByKeyDesc_sorted _ _, ?_, sortByKeyDesc_sorted _ _, ?_⟩
  · have hperm := (sortByKeyDesc_perm (fun e : String × String × Nat => e.2.2)
      ((firstDedup (t.map (fun r => r.format))).map (fun f =>
        (f, (((t.find? (fun r => r.format == f)).map (fun r => r.id)).getD ""),
         (t.filter (fun r => r.format == f)).length)))).map
      (fun e : String × String × Nat => (e.1, e.2.2))
    refine hperm.trans ?_
    rw [List.map_map]
    exact List.Perm.refl _
  · have hperm := (sortByKeyDesc_perm (fun e : String × String × String × Nat => e.2.2.2)
      ((firstDedup (t.map (fun r => (r.format, r.version)))).map (fun k =>
        (k.1,
         (((t.find? (fun r => r.format == k.1 && r.version == k.2)).map
            (fun r => r.id)).getD ""),
         k.2,
         (t.filter (fun r => r.format == k.1 && r.version == k.2)).length)))).map
      (fun e : String × String × String × Nat => ((e.1, e.2.2.1), e.2.2.2))
    refine hperm.trans ?_
    rw [List.map_map]
    exact List.Perm.refl _

/-- C5 (counterexample): a duplicates table of two differently-named
non-empty files whose recorded hash is the literal string `Checksum`.  The
duplicates query yields two data rows, yet the rendered section contains
neither a table nor the `None found.` placeholder: the rows' hash is
conflated with the CSV header label and removed from the hash list. -/
theorem c5_counterexample :
    dupRows [exCk1, exCk2] ≠ [] ∧
    tablePiece ∉ write_html "Duplicates" (duplicatesCsv [exCk1, exCk2]) ∧
    noneFoundPiece ∉ write_html "Duplicates" (duplicatesCsv [exCk1, exCk2]) := by
  refine ⟨by decide, by decide, by decide⟩

/-- C5 (amended): every section renders `None found.` and no table element
when its query (or, for PII, its source log) yields zero data rows, and
renders a table when it yields at least one — uniformly across the seven
flat sections, the PII section, and the Duplicates section, the last under
the proviso that no duplicate row's hash equals the literal header label
`Checksum` (such rows are conflated with the header and silently dropped
from the rendering). -/
theorem c5_section_rendering :
    (∀ p ∈ flatSections, noneFoundPiece ∈ write_html p.1 [p.2] ∧
      tablePiece ∉ write_html p.1 [p.2]) ∧
    (∀ (name : String) (hdr row : List String) (rest : List (List String)),
      name ≠ "Duplicates" → name ≠ "Personally Identifiable Information (PII)" →
      tablePiece ∈ write_html name (hdr :: row :: rest)) ∧
    (∀ t : List Record, dupRows t = [] →
      noneFoundPiece ∈ write_html "Duplicates" (duplicatesCsv t) ∧
      tablePiece ∉ write_html "Duplicates" (duplicatesCsv t)) ∧
    (∀ t : List Record, dupRows t ≠ [] →
      (∀ r ∈ dupRows t, r.hash ≠ "Checksum") →
      tablePiece ∈ write_html "Duplicates" (duplicatesCsv t)) ∧
    (∀ rows : List (List String), rows.length ≤ 5 →
      noneFoundPiece ∈ write_html "Personally Identifiable Information (PII)" rows ∧
      tablePiece ∉ write_html "Personally Identifiable Information (PII)" rows) ∧
    (∀ rows : List (List String), 5 < rows.length →
      tablePiece ∈ write_html "Personally Identifiable Information (PII)" rows) := by
  refine ⟨by decide, ?_, ?_, ?_, ?_, ?_⟩
  · intro name hdr row rest h1 h2
    have b1 : (name == "Duplicates") = false := by simp [h1]
    have b2 : (name == "Personally Identifiable Information (PII)") = false := by
      simp [h2]
    have hlen : (hdr :: row :: rest : List (List String)).length > 1 := by
      simp [List.length_cons]
    simp [write_html, b1, b2, hlen, normalBody]
  · intro t h
    have hcsv : duplicatesCsv t = [fullHeader] := by simp [duplicatesCsv, h]
    rw [hcsv]
    exact ⟨by decide, by decide⟩
  · intro t hne hck
    rcases List.exists_cons_of_ne_nil hne with ⟨r, rs, hr⟩
    have hmap : (duplicatesCsv t).map (fun row => row.getD 4 "") =
        "Checksum" :: (dupRows t).map (fun x => x.hash) := by
      rw [duplicatesCsv, List.map_cons, List.map_map]
      rfl
    have hrd : r ∈ dupRows t := hr ▸ List.mem_cons_self r rs
    have hh : r.hash ∈
        (firstDedup ((duplicatesCsv t).map (fun row => row.getD 4 ""))).erase
          "Checksum" := by
      rw [hmap]
      refine (List.mem_erase_of_ne (hck r hrd)).2 ?_
      exact mem_firstDedup.2
        (List.mem_cons_of_mem _ (List.mem_map.2 ⟨r, hrd, rfl⟩))
    have hbody : tablePiece ∈ dupBody (duplicatesCsv t) := by
      rw [dupBody]
      exact List.mem_flatMap.2 ⟨r.hash, hh, by simp⟩
    have hlen : (duplicatesCsv t).length > 1 := by
      simp [duplicatesCsv, hr]
    simp [write_html, hlen, hbody]
  · intro rows h
    have hlt : ¬ rows.length > 5 := by omega
    refine ⟨?_, ?_⟩ <;>
      simp [write_html, hlt, noneFoundPiece, tablePiece]
  · intro rows h
    simp [write_html, h, piiBody]

/-- C5 (witness): the amended theorem applied to a one-row Errors section
and a two-row duplicates table with an ordinary hash. -/
theorem c5_section_rendering_witness :
    tablePiece ∈ write_html "Errors" (fullHeader :: recordToRow exRowA :: []) ∧
    tablePiece ∈ write_html "Duplicates" (duplicatesCsv [exRowA, exRowB]) :=
  ⟨c5_section_rendering.2.1 "Errors" fullHeader (recordToRow exRowA) []
     (by decide) (by decide),
   c5_section_rendering.2.2.2.1 [exRowA, exRowB] (by decide) (by decide)⟩

end Brunnhilde
